import Mathlib

/-!
Verification of the m3x pooling subsystem: a shallow embedding in Lean 4 of
the sharded object pool (package `pool`, file holding `shardedObjectPool`),
the stack-preserving pooled worker pool (package `sync`,
`pooled_worker_pool.go`), and the instrumented worker pool decorator
(`instrumented_worker_pool`), together with theorems settling the spec's
claims about them.

Conventions of the embedding:
* Go `interface{}` values stored in the pool are modelled as `Option Nat`
  (`none` is Go `nil`; `some k` is the k-th distinct object).
* Stateful methods become explicit state-passing functions.
* Go runtime panics (integer divide by zero from `i % 0`, calling a `nil`
  function value) are modelled with `Except GoPanic`.
* Execution-unit pinning (`ProcPin`) is modelled by passing the pinned
  shard id `pid` explicitly; the claims under study all assume no
  migration, so the same `pid` is used throughout one operation.
* The allocator (`Allocator` in Go, a field set by `Init`) is a function
  `σ → GoVal × σ` threading its own state `σ`; the canonical instance is
  the counting allocator producing the distinct tokens `some 0, some 1, …`.
-/

namespace Pool

/-- A Go `interface{}` value held by the pool: `none` models Go `nil`. -/
abbrev GoVal := Option Nat

/-- Per-shard slot, mirroring `poolLocal` / `poolLocalInternal`:
`private` (one object usable only by the pinned execution unit, renamed
`private_` because `private` is a Lean keyword) plus the lock-protected
`shared` overflow list.  The mutex, the anti-false-sharing `pad` and the
(unused in this file's functions) `filling` field carry no sequential
semantics and are omitted. -/
structure PoolLocal where
  private_ : GoVal
  shared : List GoVal
  deriving DecidableEq, Repr

/-- The configuration read by `Init`, mirroring the `ObjectPoolOptions`
accessors it calls: `Size()`, `RefillLowWatermark()`,
`RefillHighWatermark()`.  The error callback `OnPoolAccessErrorFn` is
modelled by returning the list of errors reported through it. -/
structure ObjectPoolOptions where
  size : Int
  refillLowWatermark : ℚ
  refillHighWatermark : ℚ

/-- Errors reported through the configured `OnPoolAccessErrorFn` callback. -/
inductive PoolErr where
  | alreadyInitialized
  | cannotComputeLocalSize (localSize : Int) (numProcs : Nat) (size : Int)
  deriving DecidableEq, Repr

/-- Go runtime panics that the pool code can hit. -/
inductive GoPanic where
  | integerDivideByZero
  | nilFunctionCall
  deriving DecidableEq, Repr

/-- State of a `shardedObjectPool` value.  `local` is a Lean keyword, so
the `local []*poolLocal` field is called `locals`.  `allocSet` records
whether `p.alloc` has been assigned (it is `nil` before `Init`);
`allocState` is the state threaded through the injected allocator.
`localPoolSize`, `refillLowWatermark`, `refillHighWatermark` hold the
`int` values computed by `Init`. -/
structure ShardedObjectPool (σ : Type) where
  initialized : Bool
  allocSet : Bool
  locals : List PoolLocal
  localPoolSize : Int
  refillLowWatermark : Int
  refillHighWatermark : Int
  allocState : σ
  deriving DecidableEq, Repr

/-- A pool as returned by `NewShardedObjectPool`: nothing initialized yet. -/
def emptyPool {σ : Type} (s : σ) : ShardedObjectPool σ :=
  { initialized := false, allocSet := false, locals := []
    localPoolSize := 0, refillLowWatermark := 0, refillHighWatermark := 0
    allocState := s }

/-- The counting allocator: produces the distinct objects
`some 0, some 1, some 2, …`. -/
def countAlloc : Nat → GoVal × Nat := fun c => (some c, c + 1)

/-- Model of `int(math.Ceil(float64 a / float64 b))` for the integers appearing in
`Init` (exact for the magnitudes involved): ceiling division. -/
def ceilDivInt (a : Int) (b : Nat) : Int := -((-a).fdiv b)

/-- The inner loop of `Init`: `localPoolSize` successive `p.alloc()` calls
appended in order to one shard's `shared` list. -/
def mkShared {σ : Type} (alloc : σ → GoVal × σ) : Nat → σ → List GoVal × σ
  | 0, s => ([], s)
  | k + 1, s =>
    let (v, s1) := alloc s
    let (rest, s2) := mkShared alloc k s1
    (v :: rest, s2)

/-- The outer loop of `Init`: for each of `count` shards, allocate one
`private` object and then `localPoolSize` shared objects. -/
def mkLocals {σ : Type} (alloc : σ → GoVal × σ) :
    Nat → Nat → σ → List PoolLocal × σ
  | 0, _, s => ([], s)
  | count + 1, lps, s =>
    let (pv, s1) := alloc s
    let (sh, s2) := mkShared alloc lps s1
    let (rest, s3) := mkLocals alloc count lps s2
    (⟨pv, sh⟩ :: rest, s3)

/-- Model of `(*shardedObjectPool).Init`: the CAS on `initialized` reports
`errPoolAlreadyInitialized` on a second call; otherwise `p.alloc` is set,
`localPoolSize = ceil(Size/numProcs)` is validated (reporting through the
callback and returning early when non-positive), the watermarks are
computed, and `numProcs` shard slots are pre-filled.  Returns the new
state together with the errors reported via the callback. -/
def init {σ : Type} (alloc : σ → GoVal × σ) (numProcs : Nat)
    (opts : ObjectPoolOptions) (p : ShardedObjectPool σ) :
    ShardedObjectPool σ × List PoolErr :=
  if p.initialized then
    (p, [.alreadyInitialized])
  else
    let p := { p with initialized := true, allocSet := true }
    let localPoolSize := ceilDivInt opts.size numProcs
    if localPoolSize ≤ 0 then
      (p, [.cannotComputeLocalSize localPoolSize numProcs opts.size])
    else
      let low := Int.ceil (opts.refillLowWatermark * (localPoolSize : ℚ))
      let high := Int.ceil (opts.refillHighWatermark * (localPoolSize : ℚ))
      let (ls, s') := mkLocals alloc numProcs localPoolSize.toNat p.allocState
      ({ p with localPoolSize := localPoolSize
                refillLowWatermark := low
                refillHighWatermark := high
                locals := ls
                allocState := s' }, [])

/-- Default `poolLocal` used for out-of-range `getD` (never reached when
the index is reduced modulo a non-zero length). -/
def dLocal : PoolLocal := ⟨none, []⟩

/-- Model of `(*shardedObjectPool).Put`: a `nil` argument is a no-op; otherwise pin
(`indexLocal(p.local, pid)`, which panics with a divide by zero when the
shard array is empty), store into the empty `private` slot, else append to
the shard's `shared` list. -/
def put {σ : Type} (pid : Nat) (x : GoVal) (p : ShardedObjectPool σ) :
    Except GoPanic (ShardedObjectPool σ) :=
  if x.isNone then .ok p
  else if p.locals.isEmpty then .error .integerDivideByZero
  else
    let idx := pid % p.locals.length
    let l := p.locals.getD idx dLocal
    if l.private_.isNone then
      .ok { p with locals := p.locals.set idx ⟨x, l.shared⟩ }
    else
      .ok { p with locals := p.locals.set idx ⟨l.private_, l.shared ++ [x]⟩ }

/-- The loop body of `getSlow`: scan the loop counter values `is`; for
each `i` look at `indexLocal(local, pid+i+1)` and, at the first shard with
a non-empty `shared` list, pop its last element and stop. -/
def stealLoop (pid : Nat) (locals : List PoolLocal) :
    List Nat → GoVal × List PoolLocal
  | [] => (none, locals)
  | i :: rest =>
    let idx := (pid + i + 1) % locals.length
    let l := locals.getD idx dLocal
    match l.shared.getLast? with
    | some v => (v, locals.set idx ⟨l.private_, l.shared.dropLast⟩)
    | none => stealLoop pid locals rest

/-- Model of `(*shardedObjectPool).getSlow`: try to steal one element from the
other shards, scanning `i = 0 … len(local)-1` at indices
`(pid+i+1) mod len(local)` (no migration: the re-pinned id equals the
caller's `pid`). -/
def getSlow {σ : Type} (pid : Nat) (p : ShardedObjectPool σ) :
    GoVal × ShardedObjectPool σ :=
  let (x, ls) := stealLoop pid p.locals (List.range p.locals.length)
  (x, { p with locals := ls })

/-- Model of `(*shardedObjectPool).Get`: pin (panics on an empty shard array), take
and clear the `private` slot; if `nil`, pop the last element of the own
shard's `shared` list; if still `nil`, run one steal pass (`getSlow`); if
still `nil`, call `p.alloc()` (a `nil` function before `Init` set it). -/
def get {σ : Type} (alloc : σ → GoVal × σ) (pid : Nat)
    (p : ShardedObjectPool σ) :
    Except GoPanic (GoVal × ShardedObjectPool σ) :=
  if p.locals.isEmpty then .error .integerDivideByZero
  else
    let idx := pid % p.locals.length
    let l := p.locals.getD idx dLocal
    let x := l.private_
    let p := { p with locals := p.locals.set idx ⟨none, l.shared⟩ }
    if x.isSome then .ok (x, p)
    else
      let l := p.locals.getD idx dLocal
      let (x, p) :=
        match l.shared.getLast? with
        | some v =>
          (v, { p with locals := p.locals.set idx ⟨l.private_, l.shared.dropLast⟩ })
        | none => (none, p)
      if x.isSome then .ok (x, p)
      else
        let (x, p) := getSlow pid p
        if x.isSome then .ok (x, p)
        else
          if p.allocSet then
            let (v, s') := alloc p.allocState
            .ok (v, { p with allocState := s' })
          else .error .nilFunctionCall

/-- Runs `n` consecutive `Get()` calls from the same pinned execution unit,
collecting the returned values in order. -/
def getN {σ : Type} (alloc : σ → GoVal × σ) (pid : Nat) :
    Nat → ShardedObjectPool σ → Except GoPanic (List GoVal × ShardedObjectPool σ)
  | 0, p => .ok ([], p)
  | k + 1, p =>
    match get alloc pid p with
    | .error e => .error e
    | .ok (x, p') =>
      match getN alloc pid k p' with
      | .error e => .error e
      | .ok (xs, p'') => .ok (x :: xs, p'')

/-- The fixed scan order of the steal pass: indices
`(pid+1) mod n, (pid+2) mod n, …, (pid+n) mod n`. -/
def rotation (pid n : Nat) : List Nat :=
  (List.range n).map (fun i => (pid + i + 1) % n)

end Pool

namespace PWP

/-!
Embedding of the stack-preserving pooled worker pool
(`src/sync/pooled_worker_pool.go`, the variant whose `NewPooledWorkerPool`
returns `(PooledWorkerPool, error)` and whose `spawnWorker` takes
`(initialWork, workCh, spawnReplacement)`).

A `Work` closure is identified by a `Nat` label (what we observe is which
tasks ran and in what order).  A shard's buffered channel is a bounded
FIFO queue: a non-blocking send succeeds exactly when the buffer has free
capacity; the pre-warmed workers drain the buffer.  The per-worker RNG
stream `rng.Float64() < killWorkerProbability` is determinized as a
Boolean stream `dies : Nat → Bool` (all-`true` corresponds to
`killWorkerProbability = 1.0`, since `Float64()` ranges over `[0,1)`;
all-`false` to `0.0`).
-/

/-- A unit of work, identified by a label. -/
abbrev Work := Nat

/-- One `chan Work` with its capacity and buffered contents. -/
structure Chan where
  capacity : Nat
  buffer : List Work
  deriving DecidableEq, Repr

/-- The options read by `NewPooledWorkerPool`: `NumShards()`,
`GrowOnDemand()`, `KillWorkerProbability()` (`NowFn()` is modelled by
passing the current time to `Go` directly).  `NumShards()` is an `int64`
shard count; it is modelled as `Nat`, matching the non-negative values
the options constructor produces. -/
structure PooledWorkerPoolOptions where
  numShards : Nat
  growOnDemand : Bool
  killWorkerProbability : ℚ

/-- The `pooledWorkerPool` struct. -/
structure PooledWorkerPool where
  growOnDemand : Bool
  workChs : List Chan
  numShards : Nat
  killWorkerProbability : ℚ
  deriving DecidableEq

/-- The construction error `fmt.Errorf("pooled worker pool size too small: %d", size)`. -/
inductive NewPoolError where
  | sizeTooSmall (size : Int)
  deriving DecidableEq, Repr

/-- Model of `NewPooledWorkerPool`: fails fast when `size <= 0`; otherwise clamps
`numShards` to `min(opts.NumShards(), size)` and creates that many
channels of capacity `size / numShards` (integer division). -/
def newPooledWorkerPool (size : Int) (opts : PooledWorkerPoolOptions) :
    Except NewPoolError PooledWorkerPool :=
  if size ≤ 0 then .error (.sizeTooSmall size)
  else
    let numShards := min opts.numShards size.toNat
    .ok { growOnDemand := opts.growOnDemand
          workChs := List.replicate numShards ⟨size.toNat / numShards, []⟩
          numShards := numShards
          killWorkerProbability := opts.killWorkerProbability }

/-- One recorded `spawnWorker` call for a given channel: its
`initialWork` and `spawnReplacement` arguments. -/
structure SpawnCall where
  initialWork : Option Work
  spawnReplacement : Bool
  deriving DecidableEq, Repr

/-- Model of `(*pooledWorkerPool).Init`: for every shard channel, spawn exactly
`cap(workCh)` workers via `spawnWorker(nil, workCh, true)`.  The j-th
entry lists the spawn calls made for the j-th channel. -/
def initSpawns (p : PooledWorkerPool) : List (List SpawnCall) :=
  p.workChs.map (fun ch => List.replicate ch.capacity ⟨none, true⟩)

/-- Total number of worker goroutines `Init` starts. -/
def totalInitWorkers (p : PooledWorkerPool) : Nat :=
  ((initSpawns p).map List.length).sum

/-- Outcome of one `Go(work)` call. -/
inductive GoOutcome where
  | enqueued (chIdx : Nat) (p' : PooledWorkerPool)
  | blocked (chIdx : Nat)
  | spawnedOneShot (chIdx : Nat) (call : SpawnCall)
  deriving DecidableEq

/-- Model of `(*pooledWorkerPool).Go`: the shard index is
`nowFn().UnixNano() % numShards`.  Without grow-on-demand the send blocks
on a full queue; with grow-on-demand the `select`'s `default` branch runs
`spawnWorker(work, workCh, false)` when the non-blocking send fails. -/
def go (p : PooledWorkerPool) (now : Nat) (w : Work) : GoOutcome :=
  let idx := now % p.numShards
  let ch := p.workChs.getD idx ⟨0, []⟩
  if ch.buffer.length < ch.capacity then
    .enqueued idx { p with workChs := p.workChs.set idx ⟨ch.capacity, ch.buffer ++ [w]⟩ }
  else if p.growOnDemand then
    .spawnedOneShot idx ⟨some w, false⟩
  else
    .blocked idx

/-- What a run of the goroutine body of `spawnWorker` does, given the
finite list of tasks the channel will deliver to this worker. -/
structure WorkerRun where
  executed : List Work
  spawnedReplacement : Bool
  exitedByKill : Bool
  remaining : List Work
  deriving DecidableEq, Repr

/-- The `for f := range workCh` loop of the worker goroutine: run each
received task, then sample the per-worker RNG; when it fires, spawn a
replacement — but only if `spawnReplacement` — and return.  `remaining`
is what the worker leaves unconsumed; if the delivered tasks run out the
worker is still alive, blocked on the channel. -/
def workerLoop (dies : Nat → Bool) (spawnReplacement : Bool) :
    List Work → Nat → WorkerRun
  | [], _ => ⟨[], false, false, []⟩
  | f :: fs, k =>
    if dies k then ⟨[f], spawnReplacement, true, fs⟩
    else
      let r := workerLoop dies spawnReplacement fs (k + 1)
      ⟨f :: r.executed, r.spawnedReplacement, r.exitedByKill, r.remaining⟩

/-- The full goroutine body of `spawnWorker(initialWork, workCh,
spawnReplacement)`: run `initialWork` first (no kill check after it),
then enter the channel-draining loop. -/
def workerRun (initialWork : Option Work) (dies : Nat → Bool)
    (queue : List Work) (spawnReplacement : Bool) : WorkerRun :=
  let r := workerLoop dies spawnReplacement queue 0
  ⟨initialWork.toList ++ r.executed, r.spawnedReplacement, r.exitedByKill, r.remaining⟩

/-- Per-shard steady state: the pending queue and the `spawnReplacement`
flags of the workers serving this channel. -/
structure ShardState where
  queue : List Work
  workers : List Bool
  deriving DecidableEq, Repr

/-- One scheduling step on a shard with kill decision `d`: a worker takes
the head task and runs it; if `d`, the worker dies, first spawning a
replacement (flagged `spawnReplacement = true`, on the same channel) when
it is itself an original; otherwise it keeps serving.  Also returns how
many replacement workers were spawned (0 or 1). -/
def shardStep (d : Bool) (s : ShardState) : ShardState × Nat :=
  match s.queue, s.workers with
  | [], _ => (s, 0)
  | _, [] => (s, 0)
  | _ :: ts, w :: ws =>
    if d then (⟨ts, if w then ws ++ [true] else ws⟩, if w then 1 else 0)
    else (⟨ts, ws ++ [w]⟩, 0)

/-- Run a sequence of kill decisions, one per processed task; returns the
final shard state and the total number of replacements spawned. -/
def runShard : List Bool → ShardState → ShardState × Nat
  | [], s => (s, 0)
  | d :: rest, s =>
    let (s', r) := shardStep d s
    let (s'', r') := runShard rest s'
    (s'', r + r')

end PWP

namespace IWP

/-!
Embedding of the instrumented worker pool decorator
(`instrumentedWorkerPool` and `workerPoolMetrics`): the atomic gauges
`numIdle`/`numBusy`/`numWaiting` and the monotonic counters
`timeouts`/`unavailable`/`run`.  The wrapped pool's admission decision is
a Boolean parameter (`true` when the inner `GoIfAvailable` /
`GoWithTimeout` accepts the work).  On the failure path the inner pool
returns `false` without ever running the wrapped closure, so the only
metric effects are the ones the decorator applies synchronously.
-/

/-- Model of `workerPoolMetrics`. -/
structure WorkerPoolMetrics where
  numIdle : Int
  numBusy : Int
  numWaiting : Int
  timeouts : Nat
  unavailable : Nat
  run : Nat
  deriving DecidableEq, Repr

/-- Model of `(*workerPoolMetrics).incWaiting`. -/
def incWaiting (n : Int) (m : WorkerPoolMetrics) : WorkerPoolMetrics :=
  { m with numWaiting := m.numWaiting + n }

/-- Model of `(*workerPoolMetrics).incIdle`. -/
def incIdle (n : Int) (m : WorkerPoolMetrics) : WorkerPoolMetrics :=
  { m with numIdle := m.numIdle + n }

/-- Model of `(*workerPoolMetrics).incBusy`. -/
def incBusy (n : Int) (m : WorkerPoolMetrics) : WorkerPoolMetrics :=
  { m with numBusy := m.numBusy + n }

/-- Metric effect of the wrapped closure built by `instrumentedWork`
when the worker actually executes it (waiting→busy→idle, then the `run`
counter). -/
def instrumentedWorkEffect (m : WorkerPoolMetrics) : WorkerPoolMetrics :=
  let m := incWaiting (-1) m
  let m := incIdle (-1) m
  let m := incBusy 1 m
  let m := incBusy (-1) m
  let m := incIdle 1 m
  { m with run := m.run + 1 }

/-- Model of `(*instrumentedWorkerPool).GoIfAvailable`: bump "waiting", hand the
wrapped work to the inner pool; on rejection increment "unavailable" and
roll the "waiting" bump back, returning `false`. -/
def goIfAvailable (innerAccepts : Bool) (m : WorkerPoolMetrics) :
    WorkerPoolMetrics × Bool :=
  let m1 := incWaiting 1 m
  if innerAccepts then (m1, true)
  else
    let m2 := { m1 with unavailable := m1.unavailable + 1 }
    (incWaiting (-1) m2, false)

/-- Model of `(*instrumentedWorkerPool).GoWithTimeout`: same shape, with the
"timeouts" counter on the failure path. -/
def goWithTimeout (innerAccepts : Bool) (m : WorkerPoolMetrics) :
    WorkerPoolMetrics × Bool :=
  let m1 := incWaiting 1 m
  if innerAccepts then (m1, true)
  else
    let m2 := { m1 with timeouts := m1.timeouts + 1 }
    (incWaiting (-1) m2, false)

end IWP

/-! ## Claims -/

/-- C10: a second `Init` on the sharded object pool (after a successful
first one) reports `errPoolAlreadyInitialized` through the configured
error callback and leaves the pool state — allocator, per-shard slots and
watermark configuration — exactly as the first `Init` set them. -/
theorem init_already_initialized {σ : Type} (alloc : σ → Pool.GoVal × σ)
    (numProcs : Nat) (opts : Pool.ObjectPoolOptions) (p : Pool.ShardedObjectPool σ)
    (h : p.initialized = true) :
    Pool.init alloc numProcs opts p = (p, [.alreadyInitialized]) := by
  simp [Pool.init, h]

/-- Witness for C10 at a concrete already-initialized pool. -/
theorem init_already_initialized_witness :
    Pool.init Pool.countAlloc 1 ⟨10, 0, 0⟩
        (⟨true, true, [⟨some 0, [some 1]⟩], 1, 0, 0, 2⟩ : Pool.ShardedObjectPool Nat) =
      (⟨true, true, [⟨some 0, [some 1]⟩], 1, 0, 0, 2⟩, [.alreadyInitialized]) :=
  init_already_initialized Pool.countAlloc 1 ⟨10, 0, 0⟩ _ rfl

/-- C2, counterexample: with `Size = 0` and one execution unit, `Init`
computes `localPoolSize = 0 ≤ 0` and returns early, leaving the shard
array empty; the next `Get` then hits `i % len(l)` with `len(l) = 0` and
panics with an integer divide by zero — it does **not** fall back to
calling the allocator. -/
theorem get_after_failed_init_panics :
    (Pool.init Pool.countAlloc 1 ⟨0, 0, 0⟩ (Pool.emptyPool 0)).2 =
        [.cannotComputeLocalSize 0 1 0] ∧
    Pool.get Pool.countAlloc 0 (Pool.init Pool.countAlloc 1 ⟨0, 0, 0⟩ (Pool.emptyPool 0)).1 =
        .error .integerDivideByZero := ⟨rfl, rfl⟩

/-- C2 as amended: when `Init` computes `localSize ≤ 0` it reports the
error exactly once via the configured callback and returns without
panicking, leaving the pool with an empty shard array; but every
subsequent `Get` (from any execution unit) then panics with an integer
divide by zero while indexing the shard array, instead of falling back to
the allocator. -/
theorem init_localSize_nonpos_get_panics {σ : Type} (alloc : σ → Pool.GoVal × σ)
    (numProcs : Nat) (opts : Pool.ObjectPoolOptions) (s0 : σ)
    (h : Pool.ceilDivInt opts.size numProcs ≤ 0) :
    (Pool.init alloc numProcs opts (Pool.emptyPool s0)).2 =
        [.cannotComputeLocalSize (Pool.ceilDivInt opts.size numProcs) numProcs opts.size] ∧
    (Pool.init alloc numProcs opts (Pool.emptyPool s0)).1.locals = [] ∧
    ∀ pid, Pool.get alloc pid (Pool.init alloc numProcs opts (Pool.emptyPool s0)).1 =
        .error .integerDivideByZero := by
  refine ⟨?_, ?_, ?_⟩ <;> simp [Pool.init, Pool.emptyPool, h, Pool.get]

/-- Witness for C2-as-amended at `Size = 0`, one execution unit. -/
theorem init_localSize_nonpos_get_panics_witness :
    (Pool.init Pool.countAlloc 1 ⟨0, 0, 0⟩ (Pool.emptyPool 0)).2 =
        [.cannotComputeLocalSize (Pool.ceilDivInt 0 1) 1 0] ∧
    (Pool.init Pool.countAlloc 1 ⟨0, 0, 0⟩ (Pool.emptyPool 0)).1.locals = [] ∧
    ∀ pid, Pool.get Pool.countAlloc pid (Pool.init Pool.countAlloc 1 ⟨0, 0, 0⟩ (Pool.emptyPool 0)).1 =
        .error .integerDivideByZero :=
  init_localSize_nonpos_get_panics Pool.countAlloc 1 ⟨0, 0, 0⟩ 0 (by decide)

/-- C9: on the instrumented worker pool, a failed `GoIfAvailable`
increments the "unavailable" counter and a failed `GoWithTimeout`
increments the "timeouts" counter; in both failure cases the "waiting"
gauge is rolled back (net change zero over the call) and the work is
never counted as run, busy or idle — all other metrics are unchanged and
the call returns `false`. -/
theorem instrumented_failure_rollback (m : IWP.WorkerPoolMetrics) :
    ((IWP.goIfAvailable false m).2 = false ∧
      (IWP.goIfAvailable false m).1.numWaiting = m.numWaiting ∧
      (IWP.goIfAvailable false m).1.unavailable = m.unavailable + 1 ∧
      (IWP.goIfAvailable false m).1.timeouts = m.timeouts ∧
      (IWP.goIfAvailable false m).1.numBusy = m.numBusy ∧
      (IWP.goIfAvailable false m).1.numIdle = m.numIdle ∧
      (IWP.goIfAvailable false m).1.run = m.run) ∧
    ((IWP.goWithTimeout false m).2 = false ∧
      (IWP.goWithTimeout false m).1.numWaiting = m.numWaiting ∧
      (IWP.goWithTimeout false m).1.timeouts = m.timeouts + 1 ∧
      (IWP.goWithTimeout false m).1.unavailable = m.unavailable ∧
      (IWP.goWithTimeout false m).1.numBusy = m.numBusy ∧
      (IWP.goWithTimeout false m).1.numIdle = m.numIdle ∧
      (IWP.goWithTimeout false m).1.run = m.run) := by
  simp [IWP.goIfAvailable, IWP.goWithTimeout, IWP.incWaiting]

/-- C8: `NewPooledWorkerPool` returns an error exactly when `size ≤ 0`,
and in that case it returns the sentinel error and constructs nothing
(no pool value exists); the construction function itself never panics on
an invalid size. -/
theorem newPool_error_iff (size : Int) (opts : PWP.PooledWorkerPoolOptions) :
    ((∃ e, PWP.newPooledWorkerPool size opts = .error e) ↔ size ≤ 0) ∧
    (size ≤ 0 → PWP.newPooledWorkerPool size opts = .error (.sizeTooSmall size)) := by
  unfold PWP.newPooledWorkerPool
  by_cases h : size ≤ 0 <;> simp [h]

/-- Witness for C8 at `size = -3` and at `size = 4`. -/
theorem newPool_error_iff_witness :
    PWP.newPooledWorkerPool (-3) ⟨10, false, 0⟩ = .error (.sizeTooSmall (-3)) ∧
    ¬∃ e, PWP.newPooledWorkerPool 4 ⟨10, false, 0⟩ = .error e :=
  ⟨(newPool_error_iff (-3) ⟨10, false, 0⟩).2 (by decide),
   fun he => absurd ((newPool_error_iff 4 ⟨10, false, 0⟩).1.mp he) (by decide)⟩

/-- C7: for every `size > 0` and options, `NewPooledWorkerPool` builds
`numShards = min(configuredShards, size)` work channels, each of capacity
`size / numShards` (integer division), and `Init` spawns exactly
`capacity` persistent (replacement-spawning, no initial work) workers per
shard channel, for a total of `numShards * (size / numShards)` workers. -/
theorem newPool_shards_and_init (size : Int) (opts : PWP.PooledWorkerPoolOptions)
    (h : 0 < size) :
    ∃ p, PWP.newPooledWorkerPool size opts = .ok p ∧
      p.numShards = min opts.numShards size.toNat ∧
      p.workChs = List.replicate (min opts.numShards size.toNat)
          ⟨size.toNat / min opts.numShards size.toNat, []⟩ ∧
      PWP.initSpawns p = List.replicate (min opts.numShards size.toNat)
          (List.replicate (size.toNat / min opts.numShards size.toNat) ⟨none, true⟩) ∧
      PWP.totalInitWorkers p = min opts.numShards size.toNat *
          (size.toNat / min opts.numShards size.toNat) := by
  have hns : ¬size ≤ 0 := not_le.mpr h
  refine ⟨{ growOnDemand := opts.growOnDemand
            workChs := List.replicate (min opts.numShards size.toNat)
              ⟨size.toNat / min opts.numShards size.toNat, []⟩
            numShards := min opts.numShards size.toNat
            killWorkerProbability := opts.killWorkerProbability }, ?_, rfl, rfl, ?_, ?_⟩
  · simp [PWP.newPooledWorkerPool, hns]
  · simp [PWP.initSpawns, List.map_replicate]
  · simp [PWP.totalInitWorkers, PWP.initSpawns, List.map_replicate,
      List.sum_replicate, smul_eq_mul]

/-- Witness for C7 at `size = 10`, `NumShards = 3`: three channels of
capacity `10 / 3 = 3`, nine pre-warmed workers in total. -/
theorem newPool_shards_and_init_witness :
    ∃ p, PWP.newPooledWorkerPool 10 ⟨3, false, 0⟩ = .ok p ∧
      p.numShards = min 3 (10 : Int).toNat ∧
      p.workChs = List.replicate (min 3 (10 : Int).toNat)
          ⟨(10 : Int).toNat / min 3 (10 : Int).toNat, []⟩ ∧
      PWP.initSpawns p = List.replicate (min 3 (10 : Int).toNat)
          (List.replicate ((10 : Int).toNat / min 3 (10 : Int).toNat) ⟨none, true⟩) ∧
      PWP.totalInitWorkers p = min 3 (10 : Int).toNat *
          ((10 : Int).toNat / min 3 (10 : Int).toNat) :=
  newPool_shards_and_init 10 ⟨3, false, 0⟩ (by decide)

/-- C5, counterexample: on a shard whose `private` slot is occupied (as it
is right after `Init`, which pre-fills every private slot), `Put(42)` goes
to the shared list and the immediately following `Get()` returns the
private occupant `0`, not `42` — so "Put(x) immediately followed by Get()
returns x" does not hold for every single-shard operation sequence. -/
theorem put_to_occupied_private_then_get :
    Pool.put 0 (some 42)
        (⟨true, true, [⟨some 0, []⟩], 1, 0, 0, (1 : Nat)⟩ : Pool.ShardedObjectPool Nat) =
      .ok ⟨true, true, [⟨some 0, [some 42]⟩], 1, 0, 0, 1⟩ ∧
    Pool.get Pool.countAlloc 0
        (⟨true, true, [⟨some 0, [some 42]⟩], 1, 0, 0, (1 : Nat)⟩ : Pool.ShardedObjectPool Nat) =
      .ok (some 0, ⟨true, true, [⟨none, [some 42]⟩], 1, 0, 0, 1⟩) ∧
    (some 0 : Pool.GoVal) ≠ some 42 := ⟨rfl, rfl, by decide⟩

/-- C5 as amended: on one shard with no migration and with the shard's
`private` slot **empty** at the time of the first `Put`, `Put(x)` then
`Get()` returns `x` via the private slot; and for the collision pair
`Put(a); Put(b)` (from the empty-private state, any shared contents `sh`),
`a` goes to the private slot, `b` is appended to the shared list, and the
following two `Get`s return `a` then `b` (private first, then the shared
list popped from its end). -/
theorem put_get_empty_private {σ : Type} (alloc : σ → Pool.GoVal × σ)
    (sh : List Pool.GoVal) (a b : Nat) (p : Pool.ShardedObjectPool σ)
    (h : p.locals = [⟨none, sh⟩]) :
    Pool.put 0 (some a) p = .ok { p with locals := [⟨some a, sh⟩] } ∧
    Pool.get alloc 0 { p with locals := [⟨some a, sh⟩] } =
      .ok (some a, { p with locals := [⟨none, sh⟩] }) ∧
    Pool.put 0 (some b) { p with locals := [⟨some a, sh⟩] } =
      .ok { p with locals := [⟨some a, sh ++ [some b]⟩] } ∧
    Pool.get alloc 0 { p with locals := [⟨some a, sh ++ [some b]⟩] } =
      .ok (some a, { p with locals := [⟨none, sh ++ [some b]⟩] }) ∧
    Pool.get alloc 0 { p with locals := [⟨none, sh ++ [some b]⟩] } =
      .ok (some b, { p with locals := [⟨none, sh⟩] }) := by
  refine ⟨?_, ?_, ?_, ?_, ?_⟩ <;>
    simp [Pool.put, Pool.get, h, Pool.dLocal, List.getLast?_concat]

/-- Witness for C5-as-amended: empty private slot, `sh = [some 9]`,
`a = 1`, `b = 2`. -/
theorem put_get_empty_private_witness :
    Pool.put 0 (some 1)
        (⟨true, true, [⟨none, [some 9]⟩], 1, 0, 0, (3 : Nat)⟩ : Pool.ShardedObjectPool Nat) =
      .ok ⟨true, true, [⟨some 1, [some 9]⟩], 1, 0, 0, 3⟩ ∧
    Pool.get Pool.countAlloc 0
        (⟨true, true, [⟨some 1, [some 9]⟩], 1, 0, 0, (3 : Nat)⟩ : Pool.ShardedObjectPool Nat) =
      .ok (some 1, ⟨true, true, [⟨none, [some 9]⟩], 1, 0, 0, 3⟩) ∧
    Pool.put 0 (some 2)
        (⟨true, true, [⟨some 1, [some 9]⟩], 1, 0, 0, (3 : Nat)⟩ : Pool.ShardedObjectPool Nat) =
      .ok ⟨true, true, [⟨some 1, [some 9, some 2]⟩], 1, 0, 0, 3⟩ ∧
    Pool.get Pool.countAlloc 0
        (⟨true, true, [⟨some 1, [some 9, some 2]⟩], 1, 0, 0, (3 : Nat)⟩ : Pool.ShardedObjectPool Nat) =
      .ok (some 1, ⟨true, true, [⟨none, [some 9, some 2]⟩], 1, 0, 0, 3⟩) ∧
    Pool.get Pool.countAlloc 0
        (⟨true, true, [⟨none, [some 9, some 2]⟩], 1, 0, 0, (3 : Nat)⟩ : Pool.ShardedObjectPool Nat) =
      .ok (some 2, ⟨true, true, [⟨none, [some 9]⟩], 1, 0, 0, 3⟩) :=
  put_get_empty_private Pool.countAlloc [some 9] 1 2 _ rfl

/-- A worker spawned with `spawnReplacement = false` never spawns a
replacement, whatever its RNG stream and delivered tasks. -/
theorem workerLoop_no_replacement (dies : Nat → Bool) (q : List PWP.Work) (k : Nat) :
    (PWP.workerLoop dies false q k).spawnedReplacement = false := by
  induction q generalizing k with
  | nil => rfl
  | cons f fs ih =>
    by_cases hd : dies k <;> simp [PWP.workerLoop, hd, ih]

/-- C1, counterexample: a grow-on-demand one-shot worker
(`spawnWorker(work, workCh, false)`) whose kill check does not fire after
its first queued task runs the initial task 7 and then **continues
draining the queue** (it also runs the queued task 8) — it does not
execute exactly one task and exit. -/
theorem oneshot_worker_keeps_draining :
    PWP.workerRun (some 7) (fun _ => false) [8] false =
      ⟨[7, 8], false, false, []⟩ ∧ ([7, 8] : List PWP.Work) ≠ [7] := ⟨rfl, by decide⟩

/-- C1 as amended: in grow-on-demand mode, when `Go(work)` finds the
selected shard's queue full, it spawns a new worker with
`spawnReplacement = false` whose initial work is this task; that worker
executes the task immediately (first, before anything else), then keeps
draining the shard's queue as a temporary additional worker until its
kill-probability check fires, and it never spawns a replacement. -/
theorem growOnDemand_spawns_temp_worker (p : PWP.PooledWorkerPool) (now : Nat)
    (w : PWP.Work) (hg : p.growOnDemand = true)
    (hfull : ¬(p.workChs.getD (now % p.numShards) ⟨0, []⟩).buffer.length <
        (p.workChs.getD (now % p.numShards) ⟨0, []⟩).capacity) :
    PWP.go p now w = .spawnedOneShot (now % p.numShards) ⟨some w, false⟩ ∧
    (∀ dies queue, (PWP.workerRun (some w) dies queue false).spawnedReplacement = false) ∧
    (∀ dies queue, ((PWP.workerRun (some w) dies queue false).executed).head? = some w) ∧
    (∀ dies (q0 : PWP.Work) qs, dies 0 = false →
        (PWP.workerRun (some w) dies (q0 :: qs) false).executed.take 2 = [w, q0]) := by
  refine ⟨?_, ?_, ?_, ?_⟩
  · simp only [PWP.go]
    rw [if_neg hfull]
    simp [hg]
  · intro dies queue
    simp [PWP.workerRun, workerLoop_no_replacement]
  · intro dies queue
    simp [PWP.workerRun]
  · intro dies q0 qs hd
    simp [PWP.workerRun, PWP.workerLoop, hd]

/-- Witness for C1-as-amended: a one-channel grow-on-demand pool whose
queue (capacity 1) already holds a task. -/
theorem growOnDemand_spawns_temp_worker_witness :
    PWP.go ⟨true, [⟨1, [99]⟩], 1, 1⟩ 0 7 = .spawnedOneShot (0 % 1) ⟨some 7, false⟩ ∧
    (∀ dies queue, (PWP.workerRun (some 7) dies queue false).spawnedReplacement = false) ∧
    (∀ dies queue, ((PWP.workerRun (some 7) dies queue false).executed).head? = some 7) ∧
    (∀ dies (q0 : PWP.Work) qs, dies 0 = false →
        (PWP.workerRun (some 7) dies (q0 :: qs) false).executed.take 2 = [7, q0]) :=
  growOnDemand_spawns_temp_worker ⟨true, [⟨1, [99]⟩], 1, 1⟩ 0 7 rfl (by decide)

/-- With `killWorkerProbability = 1.0` every kill decision is `true` and
an all-original shard replaces one worker per task: closed form of the
run. -/
theorem runShard_killAll (q : List PWP.Work) (n : Nat) :
    PWP.runShard (List.replicate q.length true) ⟨q, List.replicate (n + 1) true⟩ =
      (⟨[], List.replicate (n + 1) true⟩, q.length) := by
  induction q with
  | nil => rfl
  | cons t ts ih =>
    have hstep : PWP.shardStep true ⟨t :: ts, List.replicate (n + 1) true⟩ =
        (⟨ts, List.replicate (n + 1) true⟩, 1) := by
      rw [List.replicate_succ]
      simp [PWP.shardStep]
      rw [← List.replicate_succ', ← List.replicate_succ]
    simp [PWP.runShard, hstep, ih]
    omega

/-- C4: an original (pre-warmed) worker selected to die spawns exactly one
replacement — flagged as an original, draining the same shard queue —
before exiting; consequently, with `killWorkerProbability = 1.0`, over any
task sequence on a shard staffed by original workers, every task causes
one worker replacement (replacements = completed tasks = submitted tasks)
and the number of live steady-state workers on the shard is constant. -/
theorem killprob_one_constant_workers (q : List PWP.Work) (ws : List Bool)
    (hne : ws ≠ []) (hall : ∀ b ∈ ws, b = true) :
    (∀ (t : PWP.Work) ts ws', PWP.shardStep true ⟨t :: ts, true :: ws'⟩ =
        (⟨ts, ws' ++ [true]⟩, 1)) ∧
    (PWP.runShard (List.replicate q.length true) ⟨q, ws⟩).1.queue = [] ∧
    (PWP.runShard (List.replicate q.length true) ⟨q, ws⟩).1.workers.length = ws.length ∧
    (∀ b ∈ (PWP.runShard (List.replicate q.length true) ⟨q, ws⟩).1.workers, b = true) ∧
    (PWP.runShard (List.replicate q.length true) ⟨q, ws⟩).2 = q.length := by
  have hrepl : ws = List.replicate ws.length true := by
    apply List.eq_replicate_of_mem
    intro b hb
    exact hall b hb
  obtain ⟨n, hn⟩ : ∃ n, ws.length = n + 1 := by
    cases hws : ws with
    | nil => exact absurd hws hne
    | cons x xs => exact ⟨xs.length, by simp [hws]⟩
  have key := runShard_killAll q n
  rw [← hn, ← hrepl] at key
  refine ⟨fun t ts ws' => by simp [PWP.shardStep], ?_, ?_, ?_, ?_⟩
  · rw [key]
  · rw [key]
  · rw [key]
    exact hall
  · rw [key]

/-- Witness for C4: three tasks on a shard with two original workers. -/
theorem killprob_one_constant_workers_witness :
    (∀ (t : PWP.Work) ts ws', PWP.shardStep true ⟨t :: ts, true :: ws'⟩ =
        (⟨ts, ws' ++ [true]⟩, 1)) ∧
    (PWP.runShard (List.replicate ([1, 2, 3] : List PWP.Work).length true)
        ⟨[1, 2, 3], [true, true]⟩).1.queue = [] ∧
    (PWP.runShard (List.replicate ([1, 2, 3] : List PWP.Work).length true)
        ⟨[1, 2, 3], [true, true]⟩).1.workers.length = ([true, true] : List Bool).length ∧
    (∀ b ∈ (PWP.runShard (List.replicate ([1, 2, 3] : List PWP.Work).length true)
        ⟨[1, 2, 3], [true, true]⟩).1.workers, b = true) ∧
    (PWP.runShard (List.replicate ([1, 2, 3] : List PWP.Work).length true)
        ⟨[1, 2, 3], [true, true]⟩).2 = ([1, 2, 3] : List PWP.Work).length :=
  killprob_one_constant_workers [1, 2, 3] [true, true] (by decide) (by decide)

/-- If every shard that the scan would look at has an empty shared list,
the steal loop finds nothing and leaves the shards untouched. -/
theorem stealLoop_eq_none (pid : Nat) (locals : List Pool.PoolLocal) (is : List Nat)
    (h : (is.map (fun i => (pid + i + 1) % locals.length)).find?
        (fun j => !(locals.getD j Pool.dLocal).shared.isEmpty) = none) :
    Pool.stealLoop pid locals is = (none, locals) := by
  induction is with
  | nil => rfl
  | cons i rest ih =>
    rw [List.map_cons, List.find?_cons] at h
    by_cases hsh : (locals.getD ((pid + i + 1) % locals.length) Pool.dLocal).shared = []
    · simp only [hsh, List.isEmpty_nil, Bool.not_true] at h
      have hrec := ih h
      simp only [Pool.stealLoop]
      rw [hsh]
      simpa using hrec
    · have hb : (locals.getD ((pid + i + 1) % locals.length) Pool.dLocal).shared.isEmpty
          = false := by
        cases hc : (locals.getD ((pid + i + 1) % locals.length) Pool.dLocal).shared with
        | nil => exact absurd hc hsh
        | cons a l => rfl
      rw [hb] at h
      simp at h

/-- If the first index of the scan order whose shard has a non-empty
shared list is `j`, the steal loop pops the last element of `j`'s shared
list, changes nothing else, and stops. -/
theorem stealLoop_eq_found (pid : Nat) (locals : List Pool.PoolLocal) (is : List Nat)
    (j : Nat)
    (h : (is.map (fun i => (pid + i + 1) % locals.length)).find?
        (fun j => !(locals.getD j Pool.dLocal).shared.isEmpty) = some j) :
    ∃ v, (locals.getD j Pool.dLocal).shared.getLast? = some v ∧
      Pool.stealLoop pid locals is =
        (v, locals.set j ⟨(locals.getD j Pool.dLocal).private_,
            (locals.getD j Pool.dLocal).shared.dropLast⟩) := by
  induction is with
  | nil => simp [List.find?] at h
  | cons i rest ih =>
    rw [List.map_cons, List.find?_cons] at h
    by_cases hsh : (locals.getD ((pid + i + 1) % locals.length) Pool.dLocal).shared = []
    · simp only [hsh, List.isEmpty_nil, Bool.not_true] at h
      obtain ⟨v, hv, hloop⟩ := ih h
      refine ⟨v, hv, ?_⟩
      simp only [Pool.stealLoop]
      rw [hsh]
      simpa using hloop
    · have hb : (locals.getD ((pid + i + 1) % locals.length) Pool.dLocal).shared.isEmpty
          = false := by
        cases hc : (locals.getD ((pid + i + 1) % locals.length) Pool.dLocal).shared with
        | nil => exact absurd hc hsh
        | cons a l => rfl
      rw [hb] at h
      simp at h
      cases hlast : (locals.getD ((pid + i + 1) % locals.length) Pool.dLocal).shared.getLast? with
      | none =>
        exact absurd (List.getLast?_eq_none_iff.mp hlast) hsh
      | some v =>
        subst h
        refine ⟨v, hlast, ?_⟩
        simp only [Pool.stealLoop]
        rw [hlast]

/-- C6: the steal pass (`getSlow`) scans the shards in the fixed rotation
`(pid+1) % n, (pid+2) % n, …` starting just after the caller's own shard;
it takes the last element of the shared list of the **first** shard in
that order with a non-empty shared list, leaving every other shard
untouched and scanning no further, and when no shard has a non-empty
shared list it returns `nil` and changes nothing. -/
theorem getSlow_rotation_spec {σ : Type} (pid : Nat) (p : Pool.ShardedObjectPool σ) :
    ((∀ l ∈ p.locals, l.shared = []) → Pool.getSlow pid p = (none, p)) ∧
    (∀ j v,
      (Pool.rotation pid p.locals.length).find?
          (fun j => !(p.locals.getD j Pool.dLocal).shared.isEmpty) = some j →
      (p.locals.getD j Pool.dLocal).shared.getLast? = some v →
      Pool.getSlow pid p =
        (v, { p with locals := p.locals.set j ⟨(p.locals.getD j Pool.dLocal).private_,
              (p.locals.getD j Pool.dLocal).shared.dropLast⟩ })) := by
  constructor
  · intro hall
    have hnone : ((List.range p.locals.length).map
        (fun i => (pid + i + 1) % p.locals.length)).find?
        (fun j => !(p.locals.getD j Pool.dLocal).shared.isEmpty) = none := by
      rw [List.find?_eq_none]
      intro j hj
      obtain ⟨i, hi, hij⟩ := List.mem_map.mp hj
      have hn : 0 < p.locals.length := by
        rcases Nat.eq_zero_or_pos p.locals.length with h0 | h0
        · rw [h0] at hi; simp at hi
        · exact h0
      have hjlt : j < p.locals.length := by
        rw [← hij]; exact Nat.mod_lt _ hn
      have hmem : p.locals.getD j Pool.dLocal ∈ p.locals := by
        rw [List.getD_eq_getElem?_getD, List.getElem?_eq_getElem hjlt]
        exact List.getElem_mem hjlt
      have hsh' := hall _ hmem
      simp only [List.getD_eq_getElem?_getD] at hsh'
      simp [hsh']
    have hsteal := stealLoop_eq_none pid p.locals (List.range p.locals.length) hnone
    simp [Pool.getSlow, hsteal]
  · intro j v hfind hlast
    have hfind' : ((List.range p.locals.length).map
        (fun i => (pid + i + 1) % p.locals.length)).find?
        (fun j => !(p.locals.getD j Pool.dLocal).shared.isEmpty) = some j := hfind
    obtain ⟨v', hv', hsteal⟩ :=
      stealLoop_eq_found pid p.locals (List.range p.locals.length) j hfind'
    rw [hlast] at hv'
    cases hv'
    simp [Pool.getSlow, hsteal]

/-- Witness for C6: two shards, caller pinned on shard 0, shard 0's shared
list empty and shard 1's holding one object: the rotation `[1, 0]` finds
shard 1 first and the steal pops `some 5` from it. -/
theorem getSlow_rotation_spec_witness :
    Pool.getSlow 0 (⟨true, true, [⟨none, []⟩, ⟨some 7, [some 5]⟩], 1, 0, 0, (6 : Nat)⟩ :
        Pool.ShardedObjectPool Nat) =
      (some 5, ⟨true, true, [⟨none, []⟩, ⟨some 7, []⟩], 1, 0, 0, 6⟩) := by
  have h := (getSlow_rotation_spec 0 (⟨true, true, [⟨none, []⟩, ⟨some 7, [some 5]⟩],
      1, 0, 0, (6 : Nat)⟩ : Pool.ShardedObjectPool Nat)).2 1 (some 5) (by decide) rfl
  simpa using h

/-- Closed form of `Init`'s shared-list pre-fill under the counting
allocator: tokens `c, c+1, …, c+k-1` in order. -/
theorem mkShared_count (k c : Nat) :
    Pool.mkShared Pool.countAlloc k c = (List.map some (List.range' c k), c + k) := by
  induction k generalizing c with
  | zero => simp [Pool.mkShared]
  | succ k ih =>
    simp [Pool.mkShared, Pool.countAlloc, ih (c + 1), List.range'_succ]
    omega

/-- Ceiling division by one is the identity: `ceil(a / 1) = a`. -/
theorem ceilDivInt_one (a : Int) : Pool.ceilDivInt a 1 = a := by
  simp [Pool.ceilDivInt, Int.fdiv_one]

/-- Result of `Init` with one execution unit and `Size = s ≥ 1` under the counting
allocator: `localPoolSize = s`, and the single shard holds the private
object `some 0` plus the shared list `[some 1, …, some s]` — the
allocator has been called `s + 1` times. -/
theorem init_one_proc (s : Nat) (hs : 1 ≤ s) (w1 w2 : ℚ) :
    Pool.init Pool.countAlloc 1 ⟨(s : Int), w1, w2⟩ (Pool.emptyPool 0) =
      ({ initialized := true, allocSet := true
         locals := [⟨some 0, List.map some (List.range' 1 s)⟩]
         localPoolSize := (s : Int)
         refillLowWatermark := Int.ceil (w1 * (((s : Int) : ℚ)))
         refillHighWatermark := Int.ceil (w2 * (((s : Int) : ℚ)))
         allocState := s + 1 }, []) := by
  have hpos : ¬((s : Int) ≤ 0) := by omega
  have hmk : Pool.mkLocals Pool.countAlloc 1 s 0 =
      ([⟨some 0, List.map some (List.range' 1 s)⟩], s + 1) := by
    simp [Pool.mkLocals, Pool.countAlloc, mkShared_count, Nat.add_comm]
  simp only [Pool.init, Pool.emptyPool, ceilDivInt_one]
  rw [if_neg (by simp)]
  rw [if_neg hpos]
  simp [Int.toNat_natCast, hmk]

/-- A `Get` from a shard whose private slot holds `some v`: the fast path
returns it and clears the slot. -/
theorem get_private_hit {σ : Type} (alloc : σ → Pool.GoVal × σ) (v : Nat)
    (sh : List Pool.GoVal) (p : Pool.ShardedObjectPool σ)
    (h : p.locals = [⟨some v, sh⟩]) :
    Pool.get alloc 0 p = .ok (some v, { p with locals := [⟨none, sh⟩] }) := by
  simp [Pool.get, h]

/-- A `Get` from a single shard with an empty private slot and a non-empty
shared list: pops the last shared element. -/
theorem get_pop_last {σ : Type} (alloc : σ → Pool.GoVal × σ) (a : Pool.GoVal)
    (ha : a.isSome = true) (sh : List Pool.GoVal) (p : Pool.ShardedObjectPool σ)
    (h : p.locals = [⟨none, sh ++ [a]⟩]) :
    Pool.get alloc 0 p = .ok (a, { p with locals := [⟨none, sh⟩] }) := by
  simp [Pool.get, h, List.getLast?_concat, List.dropLast_concat, ha]

/-- Draining a single shard whose shared list holds the (non-nil) values
`map some l`: `l.length` consecutive `Get`s return them in reverse
(LIFO) order without ever calling the allocator. -/
theorem getN_drain {σ : Type} (alloc : σ → Pool.GoVal × σ) (l : List Nat)
    (p : Pool.ShardedObjectPool σ) (h : p.locals = [⟨none, List.map some l⟩]) :
    Pool.getN alloc 0 l.length p =
      .ok ((List.map some l).reverse, { p with locals := [⟨none, []⟩] }) := by
  induction l using List.reverseRecOn generalizing p with
  | nil =>
    obtain ⟨i, al, ls, lps, rl, rh, st⟩ := p
    simp at h
    subst h
    simp [Pool.getN]
  | append_singleton l' a ih =>
    rw [List.map_append] at h
    have hget : Pool.get alloc 0 p =
        .ok (some a, { p with locals := [⟨none, List.map some l'⟩] }) :=
      get_pop_last alloc (some a) rfl (List.map some l') p h
    have hlen : (l' ++ [a]).length = l'.length + 1 := by simp
    rw [hlen]
    simp only [Pool.getN, hget]
    rw [ih _ rfl]
    simp [List.reverse_append]

/-- Splitting a run of `Get`s: `a + b` consecutive `Get`s are `a` of them
followed by `b` more from the resulting state. -/
theorem getN_add {σ : Type} (alloc : σ → Pool.GoVal × σ) (pid : Nat) (a b : Nat)
    (p : Pool.ShardedObjectPool σ) :
    Pool.getN alloc pid (a + b) p =
      match Pool.getN alloc pid a p with
      | .error e => .error e
      | .ok (xs, p') =>
        match Pool.getN alloc pid b p' with
        | .error e => .error e
        | .ok (ys, p'') => .ok (xs ++ ys, p'') := by
  induction a generalizing p with
  | zero =>
    rw [Nat.zero_add]
    simp only [Pool.getN]
    cases hb : Pool.getN alloc pid b p <;> simp
  | succ a ih =>
    have hr : a + 1 + b = (a + b) + 1 := by omega
    rw [hr]
    simp only [Pool.getN]
    cases hg : Pool.get alloc pid p with
    | error e => rfl
    | ok xp =>
      obtain ⟨x, p'⟩ := xp
      simp only [ih p']
      cases ha : Pool.getN alloc pid a p' with
      | error e => rfl
      | ok v =>
        obtain ⟨xs, p''⟩ := v
        cases hb : Pool.getN alloc pid b p'' <;> simp [hb]

/-- C3, counterexample: with one execution unit and `Size = 2`, `Init`
pre-allocates `localPoolSize + 1 = 3` objects (allocator counter 3), and
the `(size+1)`-th = 3rd consecutive `Get` still returns a pre-allocated
object (`some 1`) with the allocator counter unchanged at 3 — it does
**not** trigger a fresh allocator call. -/
theorem third_get_no_fresh_alloc :
    (Pool.init Pool.countAlloc 1 ⟨2, 0, 0⟩ (Pool.emptyPool 0)).1.allocState = 3 ∧
    (Pool.getN Pool.countAlloc 0 3
        (Pool.init Pool.countAlloc 1 ⟨2, 0, 0⟩ (Pool.emptyPool 0)).1).map
        (fun r => (r.1, r.2.allocState)) = .ok ([some 0, some 2, some 1], 3) :=
  ⟨rfl, rfl⟩

/-- C3 as amended: with `numShards = 1` execution unit and configured
`Size = s ≥ 1`, `Init` pre-allocates `localSize + 1 = s + 1` distinct
objects (one private plus `s` shared); the first `s + 1` consecutive
`Get`s (no intervening `Put`) return exactly those `s + 1` distinct
allocator-produced objects without any fresh allocator call (counter
stays `s + 1`), and it is the `(s + 2)`-th `Get` that triggers a fresh
allocator call (returning the new object `some (s + 1)` and bumping the
counter to `s + 2`). -/
theorem init_then_gets_exhaustion (s : Nat) (hs : 1 ≤ s) (w1 w2 : ℚ) :
    (Pool.getN Pool.countAlloc 0 (s + 1)
        (Pool.init Pool.countAlloc 1 ⟨(s : Int), w1, w2⟩ (Pool.emptyPool 0)).1).map
        (fun r => (r.1, r.2.locals, r.2.allocState)) =
      .ok (some 0 :: (List.map some (List.range' 1 s)).reverse, [⟨none, []⟩], s + 1) ∧
    (some 0 :: (List.map some (List.range' 1 s)).reverse).Nodup ∧
    (some 0 :: (List.map some (List.range' 1 s)).reverse).length = s + 1 ∧
    (Pool.getN Pool.countAlloc 0 (s + 2)
        (Pool.init Pool.countAlloc 1 ⟨(s : Int), w1, w2⟩ (Pool.emptyPool 0)).1).map
        (fun r => (r.1, r.2.locals, r.2.allocState)) =
      .ok ((some 0 :: (List.map some (List.range' 1 s)).reverse) ++ [some (s + 1)],
          [⟨none, []⟩], s + 2) := by
  have hinit := init_one_proc s hs w1 w2
  rw [hinit]
  have hg1 : Pool.get Pool.countAlloc 0
      ({ initialized := true, allocSet := true
         locals := [⟨some 0, List.map some (List.range' 1 s)⟩]
         localPoolSize := (s : Int)
         refillLowWatermark := Int.ceil (w1 * (((s : Int) : ℚ)))
         refillHighWatermark := Int.ceil (w2 * (((s : Int) : ℚ)))
         allocState := s + 1 } : Pool.ShardedObjectPool Nat) =
      .ok (some 0,
        { initialized := true, allocSet := true
          locals := [⟨none, List.map some (List.range' 1 s)⟩]
          localPoolSize := (s : Int)
          refillLowWatermark := Int.ceil (w1 * (((s : Int) : ℚ)))
          refillHighWatermark := Int.ceil (w2 * (((s : Int) : ℚ)))
          allocState := s + 1 }) :=
    get_private_hit Pool.countAlloc 0 (List.map some (List.range' 1 s)) _ rfl
  have hd := getN_drain Pool.countAlloc (List.range' 1 s)
      ({ initialized := true, allocSet := true
         locals := [⟨none, List.map some (List.range' 1 s)⟩]
         localPoolSize := (s : Int)
         refillLowWatermark := Int.ceil (w1 * (((s : Int) : ℚ)))
         refillHighWatermark := Int.ceil (w2 * (((s : Int) : ℚ)))
         allocState := s + 1 } : Pool.ShardedObjectPool Nat) rfl
  rw [List.length_range'] at hd
  have hbig : Pool.getN Pool.countAlloc 0 (s + 1)
      ({ initialized := true, allocSet := true
         locals := [⟨some 0, List.map some (List.range' 1 s)⟩]
         localPoolSize := (s : Int)
         refillLowWatermark := Int.ceil (w1 * (((s : Int) : ℚ)))
         refillHighWatermark := Int.ceil (w2 * (((s : Int) : ℚ)))
         allocState := s + 1 } : Pool.ShardedObjectPool Nat) =
      .ok (some 0 :: (List.map some (List.range' 1 s)).reverse,
        { initialized := true, allocSet := true
          locals := [⟨none, []⟩]
          localPoolSize := (s : Int)
          refillLowWatermark := Int.ceil (w1 * (((s : Int) : ℚ)))
          refillHighWatermark := Int.ceil (w2 * (((s : Int) : ℚ)))
          allocState := s + 1 }) := by
    simp only [Pool.getN, hg1, hd]
  have hnodup : (some 0 :: (List.map some (List.range' 1 s)).reverse).Nodup := by
    rw [List.nodup_cons]
    constructor
    · intro hmem
      rw [List.mem_reverse, List.mem_map] at hmem
      obtain ⟨x, hx, hsome⟩ := hmem
      cases hsome
      rw [List.mem_range'_1] at hx
      omega
    · rw [List.nodup_reverse]
      exact (List.nodup_range' 1 s).map (Option.some_injective _)
  refine ⟨by rw [hbig]; rfl, hnodup, by simp, ?_⟩
  have hlast : Pool.get Pool.countAlloc 0
      ({ initialized := true, allocSet := true
         locals := [⟨none, []⟩]
         localPoolSize := (s : Int)
         refillLowWatermark := Int.ceil (w1 * (((s : Int) : ℚ)))
         refillHighWatermark := Int.ceil (w2 * (((s : Int) : ℚ)))
         allocState := s + 1 } : Pool.ShardedObjectPool Nat) =
      .ok (some (s + 1),
        { initialized := true, allocSet := true
          locals := [⟨none, []⟩]
          localPoolSize := (s : Int)
          refillLowWatermark := Int.ceil (w1 * (((s : Int) : ℚ)))
          refillHighWatermark := Int.ceil (w2 * (((s : Int) : ℚ)))
          allocState := s + 2 }) := by
    simp [Pool.get, Pool.getSlow, Pool.stealLoop, Pool.countAlloc, Pool.dLocal]
  have hadd := getN_add Pool.countAlloc 0 (s + 1) 1
      ({ initialized := true, allocSet := true
         locals := [⟨some 0, List.map some (List.range' 1 s)⟩]
         localPoolSize := (s : Int)
         refillLowWatermark := Int.ceil (w1 * (((s : Int) : ℚ)))
         refillHighWatermark := Int.ceil (w2 * (((s : Int) : ℚ)))
         allocState := s + 1 } : Pool.ShardedObjectPool Nat)
  simp only [hbig] at hadd
  have hone : Pool.getN Pool.countAlloc 0 1
      ({ initialized := true, allocSet := true
         locals := [⟨none, []⟩]
         localPoolSize := (s : Int)
         refillLowWatermark := Int.ceil (w1 * (((s : Int) : ℚ)))
         refillHighWatermark := Int.ceil (w2 * (((s : Int) : ℚ)))
         allocState := s + 1 } : Pool.ShardedObjectPool Nat) =
      .ok ([some (s + 1)],
        { initialized := true, allocSet := true
          locals := [⟨none, []⟩]
          localPoolSize := (s : Int)
          refillLowWatermark := Int.ceil (w1 * (((s : Int) : ℚ)))
          refillHighWatermark := Int.ceil (w2 * (((s : Int) : ℚ)))
          allocState := s + 2 }) := by
    simp only [Pool.getN, hlast]
  rw [hone] at hadd
  rw [hadd]
  rfl

/-- Witness for C3-as-amended at `s = 2`: the three preallocated objects
come back over three `Get`s with the counter fixed at 3, and the fourth
`Get` allocates `some 3`. -/
theorem init_then_gets_exhaustion_witness :
    (Pool.getN Pool.countAlloc 0 (2 + 1)
        (Pool.init Pool.countAlloc 1 ⟨((2 : Nat) : Int), 0, 0⟩ (Pool.emptyPool 0)).1).map
        (fun r => (r.1, r.2.locals, r.2.allocState)) =
      .ok (some 0 :: (List.map some (List.range' 1 2)).reverse, [⟨none, []⟩], 2 + 1) ∧
    (some 0 :: (List.map some (List.range' 1 2)).reverse).Nodup ∧
    (some 0 :: (List.map some (List.range' 1 2)).reverse).length = 2 + 1 ∧
    (Pool.getN Pool.countAlloc 0 (2 + 2)
        (Pool.init Pool.countAlloc 1 ⟨((2 : Nat) : Int), 0, 0⟩ (Pool.emptyPool 0)).1).map
        (fun r => (r.1, r.2.locals, r.2.allocState)) =
      .ok ((some 0 :: (List.map some (List.range' 1 2)).reverse) ++ [some (2 + 1)],
          [⟨none, []⟩], 2 + 2) :=
  init_then_gets_exhaustion 2 (by decide) 0 0

/-- Witness for C9 at concrete metrics (4 idle workers, clean counters). -/
theorem instrumented_failure_rollback_witness :
    ((IWP.goIfAvailable false ⟨4, 0, 0, 0, 0, 0⟩).2 = false ∧
      (IWP.goIfAvailable false ⟨4, 0, 0, 0, 0, 0⟩).1.numWaiting =
        (⟨4, 0, 0, 0, 0, 0⟩ : IWP.WorkerPoolMetrics).numWaiting ∧
      (IWP.goIfAvailable false ⟨4, 0, 0, 0, 0, 0⟩).1.unavailable =
        (⟨4, 0, 0, 0, 0, 0⟩ : IWP.WorkerPoolMetrics).unavailable + 1 ∧
      (IWP.goIfAvailable false ⟨4, 0, 0, 0, 0, 0⟩).1.timeouts =
        (⟨4, 0, 0, 0, 0, 0⟩ : IWP.WorkerPoolMetrics).timeouts ∧
      (IWP.goIfAvailable false ⟨4, 0, 0, 0, 0, 0⟩).1.numBusy =
        (⟨4, 0, 0, 0, 0, 0⟩ : IWP.WorkerPoolMetrics).numBusy ∧
      (IWP.goIfAvailable false ⟨4, 0, 0, 0, 0, 0⟩).1.numIdle =
        (⟨4, 0, 0, 0, 0, 0⟩ : IWP.WorkerPoolMetrics).numIdle ∧
      (IWP.goIfAvailable false ⟨4, 0, 0, 0, 0, 0⟩).1.run =
        (⟨4, 0, 0, 0, 0, 0⟩ : IWP.WorkerPoolMetrics).run) ∧
    ((IWP.goWithTimeout false ⟨4, 0, 0, 0, 0, 0⟩).2 = false ∧
      (IWP.goWithTimeout false ⟨4, 0, 0, 0, 0, 0⟩).1.numWaiting =
        (⟨4, 0, 0, 0, 0, 0⟩ : IWP.WorkerPoolMetrics).numWaiting ∧
      (IWP.goWithTimeout false ⟨4, 0, 0, 0, 0, 0⟩).1.timeouts =
        (⟨4, 0, 0, 0, 0, 0⟩ : IWP.WorkerPoolMetrics).timeouts + 1 ∧
      (IWP.goWithTimeout false ⟨4, 0, 0, 0, 0, 0⟩).1.unavailable =
        (⟨4, 0, 0, 0, 0, 0⟩ : IWP.WorkerPoolMetrics).unavailable ∧
      (IWP.goWithTimeout false ⟨4, 0, 0, 0, 0, 0⟩).1.numBusy =
        (⟨4, 0, 0, 0, 0, 0⟩ : IWP.WorkerPoolMetrics).numBusy ∧
      (IWP.goWithTimeout false ⟨4, 0, 0, 0, 0, 0⟩).1.numIdle =
        (⟨4, 0, 0, 0, 0, 0⟩ : IWP.WorkerPoolMetrics).numIdle ∧
      (IWP.goWithTimeout false ⟨4, 0, 0, 0, 0, 0⟩).1.run =
        (⟨4, 0, 0, 0, 0, 0⟩ : IWP.WorkerPoolMetrics).run) :=
  instrumented_failure_rollback ⟨4, 0, 0, 0, 0, 0⟩
